import Mathlib

/-!
# Books.jsx : the client-side CRUD state of the bookstore view

A shallow embedding of the React component `Books` of
`src/Frontend/bookstore-app/src/Books.jsx`.  The five `useState` cells become
the fields of `State`; every handler becomes a function `State → … → State`.
A remote call (axios `get`, `post`, `put`, `delete`) is an input of the handler:
the `Reply` the promise settles with.  `handleSubmit s` and `handleDelete s` are
one invocation, run in state `s` and settled with no other handler in between;
`settleSubmit c s` and `settleDelete c s` keep the state `c` the handler was
called in apart from the state `s` at settlement, and `View`, `act` let the
calls and settlements of several outstanding requests interleave.

JavaScript values are modelled as follows: a text field of a record or of the
form is `Option String` (`none` for `null` / `undefined`), an identifier is a
natural number compared with `===`, the editing marker is `Option Book`
(`none` for `null`; an object is always truthy).
-/

namespace Bookstore

/-! ## Data model -/

/-- A book record as the server returns it. -/
structure Book where
  id : Nat
  title : Option String
  author : Option String
  genre : Option String
  publication_date : Option String
  description : Option String
deriving DecidableEq, Repr

/-- The form buffer: the object held by the `form` state cell. -/
structure Form where
  title : Option String
  author : Option String
  genre : Option String
  publication_date : Option String
  description : Option String
deriving DecidableEq, Repr

/-- The object literal with all five fields `""` (lines 6-12, 51-57, 117-123, 232-238). -/
def emptyForm : Form :=
  { title := some "", author := some "", genre := some "",
    publication_date := some "", description := some "" }

/-- The five `useState` cells of the component (lines 5-15). -/
structure State where
  books : List Book
  form : Form
  error : String
  editingBook : Option Book
  isFormVisible : Bool
deriving DecidableEq, Repr

/-- The initial values passed to `useState` (lines 5-15). -/
def initState : State :=
  { books := [], form := emptyForm, error := "", editingBook := none, isFormVisible := false }

/-- How the promise of a remote call settles: resolved with the response data, or rejected. -/
inductive Reply (α : Type) where
  | resolved (data : α)
  | rejected
deriving DecidableEq, Repr

/-- The `name` attribute of the five inputs that fire `handleChange`. -/
inductive Field where
  | title | author | genre | publication_date | description
deriving DecidableEq, Repr

/-! ## JavaScript helpers -/

/-- Truthiness of a string-or-absent value: `null`, `undefined` and `""` are falsy. -/
def truthy : Option String → Bool
  | none => false
  | some s => s != ""

/-- The pieces of `String.prototype.split` for a one-character separator, on characters. -/
def splitChars (sep : Char) : List Char → List (List Char)
  | [] => [[]]
  | c :: cs =>
    if c = sep then [] :: splitChars sep cs
    else
      match splitChars sep cs with
      | piece :: rest => (c :: piece) :: rest
      | [] => [[c]]

/-- The array `s.split(sep)` for a one-character separator. -/
def jsSplit (s : String) (sep : Char) : List String :=
  (splitChars sep s.data).map String.mk

/-! ## Handlers -/

/-- Initial load (lines 18-23): `.then((res) => setBooks(res.data))`, a rejection is only logged. -/
def loadBooks (s : State) : Reply (List Book) → State
  | .resolved data => { s with books := data }
  | .rejected => s

/-- The spread update `{ ...form, [name]: value }` (line 27). -/
def Form.set (f : Form) : Field → String → Form
  | .title, v => { f with title := some v }
  | .author, v => { f with author := some v }
  | .genre, v => { f with genre := some v }
  | .publication_date, v => { f with publication_date := some v }
  | .description, v => { f with description := some v }

/-- The input change handler `handleChange` (lines 26-28). -/
def handleChange (s : State) (name : Field) (value : String) : State :=
  { s with form := s.form.set name value }

/-- The message set by the `catch` branch of `handleSubmit` (line 62). -/
def saveFailedMessage : String := "Failed to save book. Please try again."

/-- The submit handler `handleSubmit` (lines 31-64) with the settlement of its PUT or POST. -/
def handleSubmit (s : State) : Reply Book → State
  | .rejected => { s with error := saveFailedMessage }
  | .resolved res =>
    let s1 : State :=
      match s.editingBook with
      | some editing =>
        { s with
          books := s.books.map (fun book => if book.id = editing.id then res else book),
          editingBook := none }
      | none => { s with books := s.books ++ [res] }
    { s1 with form := emptyForm, error := "", isFormVisible := false }

/-- The delete handler `handleDelete` (lines 67-74) with the settlement of its DELETE. -/
def handleDelete (s : State) (id : Nat) : Reply Unit → State
  | .resolved _ => { s with books := s.books.filter (fun book => book.id != id) }
  | .rejected => s

/-- The date put in the buffer by `handleEditClick` (lines 83-85). -/
def editDate (publication_date : Option String) : Option String :=
  if truthy publication_date then
    match publication_date with
    | some d => (jsSplit d 'T')[0]?
    | none => none
  else some ""

/-- The edit handler `handleEditClick` (lines 77-89). -/
def handleEditClick (s : State) (book : Book) : State :=
  { s with
    editingBook := some book,
    form :=
      { title := book.title,
        author := book.author,
        genre := book.genre,
        publication_date := editDate book.publication_date,
        description := book.description },
    isFormVisible := true }

/-- The `onClick` of the header button (lines 115-125). -/
def headerToggle (s : State) : State :=
  { s with editingBook := none, form := emptyForm, isFormVisible := !s.isFormVisible }

/-- The `onClick` of the "Cancel Edit" button (lines 230-239). -/
def cancelEdit (s : State) : State :=
  { s with editingBook := none, form := emptyForm }

/-- The button "Cancel Edit" is rendered only inside the visible form and when `editingBook` is
set (lines 133, 226). -/
def cancelEditRendered (s : State) : Bool :=
  s.isFormVisible && s.editingBook.isSome

/-! ## Steps of the component -/

/-- One handler invocation together with the outcome of its remote call. -/
inductive Event where
  | load (reply : Reply (List Book))
  | change (name : Field) (value : String)
  | submit (reply : Reply Book)
  | delete (id : Nat) (reply : Reply Unit)
  | editClick (book : Book)
  | toggle
  | cancel
deriving DecidableEq, Repr

/-- The state after one event. -/
def step (s : State) : Event → State
  | .load reply => loadBooks s reply
  | .change name value => handleChange s name value
  | .submit reply => handleSubmit s reply
  | .delete id reply => handleDelete s id reply
  | .editClick book => handleEditClick s book
  | .toggle => headerToggle s
  | .cancel => cancelEdit s

/-- The state after a sequence of events. -/
def run (s : State) (es : List Event) : State :=
  es.foldl step s

/-- States reachable from `initState` through events that satisfy `allowed` where they fire. -/
inductive ReachableBy (allowed : State → Event → Prop) : State → Prop where
  | init : ReachableBy allowed initState
  | next {s : State} (e : Event) : ReachableBy allowed s → allowed s e →
      ReachableBy allowed (step s e)

/-- The identifiers of a book list, in order. -/
def ids (l : List Book) : List Nat :=
  l.map Book.id

/-- The form session: visibility of the form together with the editing marker. -/
inductive Session where
  | closed
  | openNew
  | openEditing (id : Nat)
deriving DecidableEq, Repr

/-- The session a state is in. -/
def session (s : State) : Session :=
  if s.isFormVisible then
    match s.editingBook with
    | some editing => .openEditing editing.id
    | none => .openNew
  else .closed

/-- The guard of the rendering on events: "Cancel Edit" fires only where its button is rendered,
every other event is unrestricted. -/
def rendered (s : State) (e : Event) : Prop :=
  e = Event.cancel → cancelEditRendered s = true

/-- The events the state machine of the form counts as a Submit or a Cancel. -/
def isSubmitOrCancel : Event → Bool
  | .submit _ => true
  | .toggle => true
  | .cancel => true
  | _ => false

/-! ## Outstanding requests

`handleSubmit` and `handleDelete` are `async`: the part after the `await` runs when the request
settles, and it computes the new list from the `books` and `editingBook` of the render the handler
was called in (lines 34, 40-42, 47, 70), while the setters write to the state current at that
time.  `settleSubmit c s` and `settleDelete c s` are the handlers with the two states apart:
`c` the state the handler was called in, `s` the state at settlement. -/

/-- The part of `handleSubmit` after its `await` (lines 34-63): called in state `c`, settled in
state `s`. -/
def settleSubmit (c s : State) : Reply Book → State
  | .rejected => { s with error := saveFailedMessage }
  | .resolved res =>
    let s1 : State :=
      match c.editingBook with
      | some editing =>
        { s with
          books := c.books.map (fun book => if book.id = editing.id then res else book),
          editingBook := none }
      | none => { s with books := c.books ++ [res] }
    { s1 with form := emptyForm, error := "", isFormVisible := false }

/-- The part of `handleDelete` after its `await` (lines 68-73): called in state `c`, settled in
state `s`. -/
def settleDelete (c s : State) (id : Nat) : Reply Unit → State
  | .resolved _ => { s with books := c.books.filter (fun book => book.id != id) }
  | .rejected => s

/-- A request that was sent and has not settled, with the state its handler was called in. -/
inductive Pending where
  | submit (closure : State)
  | delete (closure : State) (id : Nat)
deriving DecidableEq, Repr

/-- The state a pending request was sent from. -/
def Pending.closure : Pending → State
  | .submit c => c
  | .delete c _ => c

/-- The component with its outstanding requests: no request blocks the view, and nothing keeps
two requests from being outstanding together. -/
structure View where
  current : State
  pending : List Pending
deriving DecidableEq, Repr

/-- The component after mounting, no mutation sent yet. -/
def initView : View :=
  { current := initState, pending := [] }

/-- What can happen to the component: the settlement of the GET sent on mount (`load`, which
reads no state and is allowed at any time), a handler that runs to its end, the call of an
`async` handler up to its `await`, or the settlement of the outstanding request at position
`i`. -/
inductive Action where
  | load (reply : Reply (List Book))
  | change (name : Field) (value : String)
  | editClick (book : Book)
  | toggle
  | cancel
  | callSubmit
  | callDelete (id : Nat)
  | answerSubmit (i : Nat) (reply : Reply Book)
  | answerDelete (i : Nat) (reply : Reply Unit)
deriving DecidableEq, Repr

/-- The component after one action; an answer for a request that is not outstanding at `i`
changes nothing. -/
def act (v : View) : Action → View
  | .load reply => { v with current := loadBooks v.current reply }
  | .change name value => { v with current := handleChange v.current name value }
  | .editClick book => { v with current := handleEditClick v.current book }
  | .toggle => { v with current := headerToggle v.current }
  | .cancel => { v with current := cancelEdit v.current }
  | .callSubmit => { v with pending := v.pending ++ [.submit v.current] }
  | .callDelete id => { v with pending := v.pending ++ [.delete v.current id] }
  | .answerSubmit i reply =>
    match v.pending[i]? with
    | some (.submit c) =>
      { current := settleSubmit c v.current reply, pending := v.pending.eraseIdx i }
    | _ => v
  | .answerDelete i reply =>
    match v.pending[i]? with
    | some (.delete c id) =>
      { current := settleDelete c v.current id reply, pending := v.pending.eraseIdx i }
    | _ => v

/-- The component after a sequence of actions. -/
def acts (v : View) (as : List Action) : View :=
  as.foldl act v

/-- Views reachable from `initView` through actions that satisfy `allowed` where they happen. -/
inductive InterleavedBy (allowed : View → Action → Prop) : View → Prop where
  | init : InterleavedBy allowed initView
  | next {v : View} (a : Action) : InterleavedBy allowed v → allowed v a →
      InterleavedBy allowed (act v a)

/-- A well formed answer to a create or update sent from state `c`: a created record whose
identifier is not in the list the handler was called with, an updated record that keeps the
identifier of the edited record or takes one that is not in that list. -/
def submitWellFormed (c : State) : Reply Book → Prop
  | .resolved res =>
    match c.editingBook with
    | none => res.id ∉ ids c.books
    | some editing => res.id = editing.id ∨ res.id ∉ ids c.books
  | .rejected => True

/-- The answers of a well-behaved server: a loaded collection with pairwise distinct identifiers,
and a well formed answer to each create or update; a delete answers with no record. -/
def answerWellFormed (v : View) : Action → Prop
  | .load (.resolved data) => (ids data).Nodup
  | .answerSubmit i reply =>
    match v.pending[i]? with
    | some (.submit c) => submitWellFormed c reply
    | _ => True
  | _ => True

/-- The record of the example of the specification. -/
def dune : Book :=
  { id := 7, title := some "Dune", author := some "Herbert", genre := none,
    publication_date := none, description := none }

/-! ## Helper lemmas -/

theorem ids_filter_ne (l : List Book) (x : Nat) :
    ids (l.filter (fun book => book.id != x)) = (ids l).filter (fun i => i != x) := by
  induction l with
  | nil => rfl
  | cons b t ih =>
    by_cases hb : b.id = x
    · simpa [ids, List.filter_cons, hb] using ih
    · simpa [ids, List.filter_cons, hb] using ih

theorem length_filter_ne_of_nodup (l : List Book) (x : Nat) (hnd : (ids l).Nodup)
    (hx : x ∈ ids l) : (l.filter (fun book => book.id != x)).length + 1 = l.length := by
  induction l with
  | nil => simp [ids] at hx
  | cons b t ih =>
    have hnd' : b.id ∉ ids t ∧ (ids t).Nodup := by simpa [ids] using hnd
    by_cases hb : b.id = x
    · have hall : ∀ c ∈ t, (c.id != x) = true := by
        intro c hc
        have : c.id ≠ x := by
          intro hcx
          exact hnd'.1 (by rw [hb, ← hcx]; exact List.mem_map_of_mem Book.id hc)
        simpa using this
      have hfil : t.filter (fun book => book.id != x) = t := List.filter_eq_self.mpr hall
      simp [List.filter_cons, hb, hfil]
    · have hx' : x ∈ ids t := by
        have : x = b.id ∨ x ∈ ids t := by simpa [ids] using hx
        rcases this with h | h
        · exact absurd h.symm hb
        · exact h
      have := ih hnd'.2 hx'
      simp [List.filter_cons, hb, this]

theorem filter_ne_split_of_nodup (l : List Book) (x : Nat) (hnd : (ids l).Nodup)
    (hx : x ∈ ids l) :
    ∃ pre b post, l = pre ++ b :: post ∧ b.id = x ∧
      l.filter (fun book => book.id != x) = pre ++ post := by
  induction l with
  | nil => simp [ids] at hx
  | cons b t ih =>
    have hnd' : b.id ∉ ids t ∧ (ids t).Nodup := by simpa [ids] using hnd
    by_cases hb : b.id = x
    · have hall : ∀ c ∈ t, (c.id != x) = true := by
        intro c hc
        have : c.id ≠ x := by
          intro hcx
          exact hnd'.1 (by rw [hb, ← hcx]; exact List.mem_map_of_mem Book.id hc)
        simpa using this
      have hfil : t.filter (fun book => book.id != x) = t := List.filter_eq_self.mpr hall
      exact ⟨[], b, t, rfl, hb, by simp [List.filter_cons, hb, hfil]⟩
    · have hx' : x ∈ ids t := by
        have : x = b.id ∨ x ∈ ids t := by simpa [ids] using hx
        rcases this with h | h
        · exact absurd h.symm hb
        · exact h
      obtain ⟨pre, c, post, hl, hc, hf⟩ := ih hnd'.2 hx'
      refine ⟨b :: pre, c, post, by rw [hl]; rfl, hc, ?_⟩
      simp [List.filter_cons, hb, hf]

theorem splitChars_head (sep : Char) (l : List Char) :
    (splitChars sep l)[0]? = some (l.takeWhile (fun c => c != sep)) := by
  induction l with
  | nil => rfl
  | cons c cs ih =>
    by_cases hc : c = sep
    · simp [splitChars, hc, List.takeWhile_cons]
    · cases hsp : splitChars sep cs with
      | nil => simp [hsp] at ih
      | cons piece rest =>
        have hp : piece = cs.takeWhile (fun c => c != sep) := by simpa [hsp] using ih
        simp [splitChars, hc, hsp, List.takeWhile_cons, hp]

theorem takeWhile_ne_append_sep (sep : Char) (l r : List Char) (hl : sep ∉ l) :
    (l ++ sep :: r).takeWhile (fun c => c != sep) = l := by
  induction l with
  | nil => simp [List.takeWhile_cons]
  | cons c cs ih =>
    have h : ¬ sep = c ∧ sep ∉ cs := by simpa using hl
    have hc : c ≠ sep := fun e => h.1 e.symm
    simp [List.takeWhile_cons, hc, ih h.2]

theorem takeWhile_ne_of_not_mem (sep : Char) (l : List Char) (hl : sep ∉ l) :
    l.takeWhile (fun c => c != sep) = l := by
  induction l with
  | nil => rfl
  | cons c cs ih =>
    have h : ¬ sep = c ∧ sep ∉ cs := by simpa using hl
    have hc : c ≠ sep := fun e => h.1 e.symm
    simp [List.takeWhile_cons, hc, ih h.2]

theorem editDate_of_ne_empty (d : String) (hd : d ≠ "") :
    editDate (some d) = some (String.mk (d.data.takeWhile (fun c => c != 'T'))) := by
  simp [editDate, truthy, hd, jsSplit, splitChars_head]

/-! ## Submit -/

/-- C1: a successful create (no record being edited, POST resolved with `r`) appends `r` to the
book list: the length grows by one, the first entries are unchanged, the last entry is `r` with
its identifier; the form buffer is the empty buffer, the error is `""`, the form is closed. -/
theorem handleSubmit_create_success (s : State) (r : Book) (hnew : s.editingBook = none) :
    (handleSubmit s (.resolved r)).books = s.books ++ [r] ∧
    (handleSubmit s (.resolved r)).books.length = s.books.length + 1 ∧
    (∀ i : Nat, i < s.books.length → (handleSubmit s (.resolved r)).books[i]? = s.books[i]?) ∧
    (handleSubmit s (.resolved r)).books[s.books.length]? = some r ∧
    (handleSubmit s (.resolved r)).books.getLast? = some r ∧
    ((handleSubmit s (.resolved r)).books.getLast?).map Book.id = some r.id ∧
    (handleSubmit s (.resolved r)).form = emptyForm ∧
    (handleSubmit s (.resolved r)).form =
      { title := some "", author := some "", genre := some "", publication_date := some "",
        description := some "" } ∧
    (handleSubmit s (.resolved r)).error = "" ∧
    (handleSubmit s (.resolved r)).isFormVisible = false ∧
    (handleSubmit s (.resolved r)).editingBook = none := by
  have hb : (handleSubmit s (.resolved r)).books = s.books ++ [r] := by
    simp [handleSubmit, hnew]
  refine ⟨hb, ?_, ?_, ?_, ?_, ?_, ?_, ?_, ?_, ?_, ?_⟩
  · simp [hb]
  · intro i hi
    rw [hb, List.getElem?_append_left hi]
  · simp [hb]
  · simp [hb]
  · simp [hb]
  · simp [handleSubmit]
  · simp [handleSubmit, emptyForm]
  · simp [handleSubmit]
  · simp [handleSubmit]
  · simp [handleSubmit, hnew]

/-- Witness of C1: the example of the specification, "Dune" created as record 7 after one
loaded record. -/
theorem handleSubmit_create_success_witness :
    (handleSubmit
        { books := [⟨3, some "Emma", some "Austen", none, none, none⟩],
          form := { emptyForm with title := some "Dune", author := some "Herbert" },
          error := "", editingBook := none, isFormVisible := true }
        (.resolved ⟨7, some "Dune", some "Herbert", none, none, none⟩)).books =
      [⟨3, some "Emma", some "Austen", none, none, none⟩,
       ⟨7, some "Dune", some "Herbert", none, none, none⟩] :=
  (handleSubmit_create_success
    { books := [⟨3, some "Emma", some "Austen", none, none, none⟩],
      form := { emptyForm with title := some "Dune", author := some "Herbert" },
      error := "", editingBook := none, isFormVisible := true }
    ⟨7, some "Dune", some "Herbert", none, none, none⟩ rfl).1

/-- C2: a successful update (record `x` being edited, PUT resolved with `r`) keeps the length of
the book list and puts `r` at every position whose entry has the identifier of `x`, leaving every
other position as it was; the editing marker is null, the buffer is empty, the form is closed. -/
theorem handleSubmit_update_success (s : State) (x r : Book) (hedit : s.editingBook = some x) :
    (handleSubmit s (.resolved r)).books.length = s.books.length ∧
    (∀ i : Nat, (handleSubmit s (.resolved r)).books[i]? =
      (s.books[i]?).map (fun book => if book.id = x.id then r else book)) ∧
    (∀ (i : Nat) (book : Book), s.books[i]? = some book → book.id = x.id →
      (handleSubmit s (.resolved r)).books[i]? = some r) ∧
    (∀ (i : Nat) (book : Book), s.books[i]? = some book → book.id ≠ x.id →
      (handleSubmit s (.resolved r)).books[i]? = some book) ∧
    (handleSubmit s (.resolved r)).editingBook = none ∧
    (handleSubmit s (.resolved r)).form = emptyForm ∧
    (handleSubmit s (.resolved r)).error = "" ∧
    (handleSubmit s (.resolved r)).isFormVisible = false := by
  have hb : (handleSubmit s (.resolved r)).books =
      s.books.map (fun book => if book.id = x.id then r else book) := by
    simp [handleSubmit, hedit]
  refine ⟨?_, ?_, ?_, ?_, ?_, ?_, ?_, ?_⟩
  · simp [hb]
  · intro i
    simp [hb]
  · intro i book hi hid
    simp [hb, hi, hid]
  · intro i book hi hid
    simp [hb, hi, hid]
  · simp [handleSubmit, hedit]
  · simp [handleSubmit]
  · simp [handleSubmit]
  · simp [handleSubmit]

/-- Witness of C2: record 2 of three is edited and the server answers with its new title. -/
theorem handleSubmit_update_success_witness :
    (handleSubmit
        { books := [⟨1, some "A", some "a", none, none, none⟩,
                    ⟨2, some "B", some "b", none, none, none⟩,
                    ⟨3, some "C", some "c", none, none, none⟩],
          form := { emptyForm with title := some "B2", author := some "b" },
          error := "", editingBook := some ⟨2, some "B", some "b", none, none, none⟩,
          isFormVisible := true }
        (.resolved ⟨2, some "B2", some "b", none, none, none⟩)).books.length = 3 :=
  (handleSubmit_update_success
    { books := [⟨1, some "A", some "a", none, none, none⟩,
                ⟨2, some "B", some "b", none, none, none⟩,
                ⟨3, some "C", some "c", none, none, none⟩],
      form := { emptyForm with title := some "B2", author := some "b" },
      error := "", editingBook := some ⟨2, some "B", some "b", none, none, none⟩,
      isFormVisible := true }
    ⟨2, some "B", some "b", none, none, none⟩
    ⟨2, some "B2", some "b", none, none, none⟩ rfl).1

/-- C4: a failed submit (PUT or POST rejected) leaves the book list, the form buffer, the editing
marker and the form visibility as they were, so an open form stays open, and sets the error
string to the generic message. -/
theorem handleSubmit_failure (s : State) :
    (handleSubmit s .rejected).books = s.books ∧
    (handleSubmit s .rejected).books.length = s.books.length ∧
    (handleSubmit s .rejected).form = s.form ∧
    (handleSubmit s .rejected).editingBook = s.editingBook ∧
    (handleSubmit s .rejected).isFormVisible = s.isFormVisible ∧
    (s.isFormVisible = true → (handleSubmit s .rejected).isFormVisible = true) ∧
    (handleSubmit s .rejected).error = "Failed to save book. Please try again." :=
  ⟨rfl, rfl, rfl, rfl, rfl, fun h => h, rfl⟩

/-! ## Delete and load -/

/-- C3: on a book list with pairwise distinct identifiers that holds identifier `x`, a successful
delete of `x` removes exactly one entry, the one with identifier `x`: the list is one shorter, no
entry has identifier `x`, every other entry is kept, in the same relative order; the form buffer,
the editing marker, the error string and the form visibility are unchanged. -/
theorem handleDelete_success (s : State) (x : Nat) (hnd : (ids s.books).Nodup)
    (hx : x ∈ ids s.books) :
    (handleDelete s x (.resolved ())).books.length = s.books.length - 1 ∧
    (handleDelete s x (.resolved ())).books.length + 1 = s.books.length ∧
    (∀ b ∈ (handleDelete s x (.resolved ())).books, b.id ≠ x) ∧
    (∀ b ∈ s.books, b.id ≠ x → b ∈ (handleDelete s x (.resolved ())).books) ∧
    (handleDelete s x (.resolved ())).books.Sublist s.books ∧
    (∃ pre b post, s.books = pre ++ b :: post ∧ b.id = x ∧
      (handleDelete s x (.resolved ())).books = pre ++ post) ∧
    (handleDelete s x (.resolved ())).form = s.form ∧
    (handleDelete s x (.resolved ())).editingBook = s.editingBook ∧
    (handleDelete s x (.resolved ())).error = s.error ∧
    (handleDelete s x (.resolved ())).isFormVisible = s.isFormVisible := by
  have hb : (handleDelete s x (.resolved ())).books =
      s.books.filter (fun book => book.id != x) := rfl
  have hlen := length_filter_ne_of_nodup s.books x hnd hx
  refine ⟨?_, ?_, ?_, ?_, ?_, ?_, rfl, rfl, rfl, rfl⟩
  · rw [hb]; omega
  · rw [hb]; exact hlen
  · intro b hmem
    rw [hb] at hmem
    simpa using (List.mem_filter.mp hmem).2
  · intro b hmem hne
    rw [hb]
    exact List.mem_filter.mpr ⟨hmem, by simpa using hne⟩
  · rw [hb]
    exact List.filter_sublist s.books
  · rw [hb]
    exact filter_ne_split_of_nodup s.books x hnd hx

/-- Witness of C3: record 2 is deleted from the records 1, 2, 3. -/
theorem handleDelete_success_witness :
    (handleDelete
        { books := [⟨1, some "A", some "a", none, none, none⟩,
                    ⟨2, some "B", some "b", none, none, none⟩,
                    ⟨3, some "C", some "c", none, none, none⟩],
          form := emptyForm, error := "", editingBook := none, isFormVisible := false }
        2 (.resolved ())).books.length = 3 - 1 :=
  (handleDelete_success
    { books := [⟨1, some "A", some "a", none, none, none⟩,
                ⟨2, some "B", some "b", none, none, none⟩,
                ⟨3, some "C", some "c", none, none, none⟩],
      form := emptyForm, error := "", editingBook := none, isFormVisible := false }
    2 (by decide) (by decide)).1

/-- C5: a delete whose remote call is rejected leaves the whole state as it was; a load that is
rejected leaves the state as it was, so from the initial state the book list is still empty and
the error string still `""`; a load that resolves with `data` makes the book list exactly `data`,
so the displayed count is the number of records of the response. -/
theorem delete_load_failure_atomic (s : State) (id : Nat) (data : List Book) :
    handleDelete s id .rejected = s ∧
    loadBooks s .rejected = s ∧
    (loadBooks initState .rejected).books = [] ∧
    (loadBooks initState .rejected).error = "" ∧
    (loadBooks s (.resolved data)).books = data ∧
    (loadBooks s (.resolved data)).books.length = data.length ∧
    (loadBooks initState (.resolved data)).books = data ∧
    (loadBooks initState (.resolved data)).books.length = data.length :=
  ⟨rfl, rfl, rfl, rfl, rfl, rfl, rfl, rfl⟩

/-! ## Edit click and cancel -/

/-- C6: the edit click on record `b` sets the editing marker to `b`, opens the form, leaves the
book list unchanged and copies title, author, genre and description into the buffer; the date of
the buffer is `""` when the date of `b` is missing or empty, otherwise the part of the string
before its first `T`: `date` for `date ++ "T" ++ rest` with no `T` in `date`, and the whole
string when it has no `T`. -/
theorem handleEditClick_spec (s : State) (b : Book) :
    (handleEditClick s b).editingBook = some b ∧
    (handleEditClick s b).isFormVisible = true ∧
    (handleEditClick s b).books = s.books ∧
    (handleEditClick s b).form.title = b.title ∧
    (handleEditClick s b).form.author = b.author ∧
    (handleEditClick s b).form.genre = b.genre ∧
    (handleEditClick s b).form.description = b.description ∧
    (b.publication_date = none ∨ b.publication_date = some "" →
      (handleEditClick s b).form.publication_date = some "") ∧
    (∀ d : String, b.publication_date = some d → d ≠ "" →
      (handleEditClick s b).form.publication_date =
        some (String.mk (d.data.takeWhile (fun c => c != 'T')))) ∧
    (∀ date rest : String, 'T' ∉ date.data → b.publication_date = some (date ++ "T" ++ rest) →
      (handleEditClick s b).form.publication_date = some date) ∧
    (∀ d : String, 'T' ∉ d.data → b.publication_date = some d →
      (handleEditClick s b).form.publication_date = some d) := by
  refine ⟨rfl, rfl, rfl, rfl, rfl, rfl, rfl, ?_, ?_, ?_, ?_⟩
  · intro h
    show editDate b.publication_date = some ""
    rcases h with h | h <;> rw [h] <;> rfl
  · intro d hd hne
    show editDate b.publication_date = _
    rw [hd, editDate_of_ne_empty d hne]
  · intro date rest hT hd
    show editDate b.publication_date = _
    have hne : date ++ "T" ++ rest ≠ "" := by
      intro h
      have := congrArg String.data h
      simp at this
    rw [hd, editDate_of_ne_empty _ hne]
    have hdata : (date ++ "T" ++ rest).data = date.data ++ 'T' :: rest.data := by
      simp [String.data_append]
    rw [hdata, takeWhile_ne_append_sep 'T' date.data rest.data hT]
  · intro d hT hd
    show editDate b.publication_date = _
    rw [hd]
    by_cases hne : d = ""
    · rw [hne]; rfl
    · rw [editDate_of_ne_empty d hne, takeWhile_ne_of_not_mem 'T' d.data hT]

/-- Witness of C6: the edit click on a record dated `2024-03-05T00:00:00.000Z` puts `2024-03-05`
in the buffer. -/
theorem handleEditClick_spec_witness :
    (handleEditClick initState
      ⟨4, some "Emma", some "Austen", none, some ("2024-03-05" ++ "T" ++ "00:00:00.000Z"),
        none⟩).form.publication_date = some "2024-03-05" :=
  (handleEditClick_spec initState
    ⟨4, some "Emma", some "Austen", none, some ("2024-03-05" ++ "T" ++ "00:00:00.000Z"),
      none⟩).2.2.2.2.2.2.2.2.2.1 "2024-03-05" "00:00:00.000Z" (by decide) rfl

/-- C8: the header toggle and "Cancel Edit" both reset the form buffer to the empty buffer (all
five fields `""`) and the editing marker to null and leave the book list and the error string
unchanged; "Cancel Edit" leaves the form visibility unchanged, the header toggle negates it. -/
theorem cancel_handlers_spec (s : State) :
    (headerToggle s).form = emptyForm ∧ (cancelEdit s).form = emptyForm ∧
    emptyForm = { title := some "", author := some "", genre := some "",
                  publication_date := some "", description := some "" } ∧
    (headerToggle s).editingBook = none ∧ (cancelEdit s).editingBook = none ∧
    (headerToggle s).books = s.books ∧ (cancelEdit s).books = s.books ∧
    (headerToggle s).error = s.error ∧ (cancelEdit s).error = s.error ∧
    (cancelEdit s).isFormVisible = s.isFormVisible ∧
    (headerToggle s).isFormVisible = !s.isFormVisible :=
  ⟨rfl, rfl, rfl, rfl, rfl, rfl, rfl, rfl, rfl, rfl, rfl⟩

/-! ## Invariants of the reachable states -/

theorem settleSubmit_self (s : State) (reply : Reply Book) :
    settleSubmit s s reply = handleSubmit s reply := by
  cases reply <;> rfl

theorem settleDelete_self (s : State) (id : Nat) (reply : Reply Unit) :
    settleDelete s s id reply = handleDelete s id reply := by
  cases reply <;> rfl

theorem act_call_answer_submit (v : View) (reply : Reply Book) :
    (act (act v .callSubmit) (.answerSubmit v.pending.length reply)).current =
      handleSubmit v.current reply := by
  simp [act, List.getElem?_concat_length, settleSubmit_self]

theorem act_call_answer_delete (v : View) (id : Nat) (reply : Reply Unit) :
    (act (act v (.callDelete id)) (.answerDelete v.pending.length reply)).current =
      handleDelete v.current id reply := by
  simp [act, List.getElem?_concat_length, settleDelete_self]

theorem ids_nodup_settleSubmit (c s : State) (reply : Reply Book) (hc : (ids c.books).Nodup)
    (hs : (ids s.books).Nodup) (hwf : submitWellFormed c reply) :
    (ids (settleSubmit c s reply).books).Nodup := by
  cases reply with
  | rejected => exact hs
  | resolved res =>
    cases hed : c.editingBook with
    | none =>
      have hfresh : res.id ∉ ids c.books := by simpa [submitWellFormed, hed] using hwf
      have hb : (settleSubmit c s (.resolved res)).books = c.books ++ [res] := by
        simp [settleSubmit, hed]
      rw [hb]
      have : ids (c.books ++ [res]) = ids c.books ++ [res.id] := by simp [ids]
      rw [this]
      exact List.Nodup.append hc (List.nodup_singleton _) (by simpa using hfresh)
    | some editing =>
      have hres : res.id = editing.id ∨ res.id ∉ ids c.books := by
        simpa [submitWellFormed, hed] using hwf
      have hb : (settleSubmit c s (.resolved res)).books =
          c.books.map (fun book => if book.id = editing.id then res else book) := by
        simp [settleSubmit, hed]
      rw [hb]
      have hmap : ids (c.books.map (fun book => if book.id = editing.id then res else book)) =
          (ids c.books).map (fun i => if i = editing.id then res.id else i) := by
        simp only [ids, List.map_map]
        apply List.map_congr_left
        intro book _
        by_cases h : book.id = editing.id <;> simp [h]
      rw [hmap]
      apply List.Nodup.map_on _ hc
      intro i hi j hj hij
      by_cases h1 : i = editing.id <;> by_cases h2 : j = editing.id
      · rw [h1, h2]
      · simp only [h1, h2, if_true, if_false] at hij
        rcases hres with hr | hr
        · exact absurd (hij.symm.trans hr) h2
        · exact absurd (hij ▸ hj) hr
      · simp only [h1, h2, if_true, if_false] at hij
        rcases hres with hr | hr
        · exact absurd (hij.trans hr) h1
        · exact absurd (hij ▸ hi) hr
      · simpa only [h1, h2, if_false] using hij

theorem ids_nodup_settleDelete (c s : State) (id : Nat) (reply : Reply Unit)
    (hc : (ids c.books).Nodup) (hs : (ids s.books).Nodup) :
    (ids (settleDelete c s id reply).books).Nodup := by
  cases reply with
  | rejected => exact hs
  | resolved u =>
    show (ids (c.books.filter (fun book => book.id != id))).Nodup
    rw [ids_filter_ne]
    exact hc.filter _

/-- The invariant of the views: the displayed list and the list every outstanding request was
sent from have pairwise distinct identifiers. -/
theorem ids_nodup_act (v : View) (a : Action) (hcur : (ids v.current.books).Nodup)
    (hpen : ∀ p ∈ v.pending, (ids p.closure.books).Nodup) (hwf : answerWellFormed v a) :
    (ids (act v a).current.books).Nodup ∧
      ∀ p ∈ (act v a).pending, (ids p.closure.books).Nodup := by
  cases a with
  | load reply =>
    cases reply with
    | resolved data => exact ⟨hwf, hpen⟩
    | rejected => exact ⟨hcur, hpen⟩
  | change name value => exact ⟨hcur, hpen⟩
  | editClick book => exact ⟨hcur, hpen⟩
  | toggle => exact ⟨hcur, hpen⟩
  | cancel => exact ⟨hcur, hpen⟩
  | callSubmit =>
    refine ⟨hcur, ?_⟩
    intro p hp
    have hp' : p ∈ v.pending ++ [Pending.submit v.current] := hp
    rcases List.mem_append.mp hp' with h | h
    · exact hpen p h
    · rw [List.mem_singleton.mp h]; exact hcur
  | callDelete id =>
    refine ⟨hcur, ?_⟩
    intro p hp
    have hp' : p ∈ v.pending ++ [Pending.delete v.current id] := hp
    rcases List.mem_append.mp hp' with h | h
    · exact hpen p h
    · rw [List.mem_singleton.mp h]; exact hcur
  | answerSubmit i reply =>
    cases hget : v.pending[i]? with
    | none => simpa [act, hget] using And.intro hcur hpen
    | some p =>
      cases p with
      | delete c id => simpa [act, hget] using And.intro hcur hpen
      | submit c =>
        have hc : (ids c.books).Nodup := hpen _ (List.getElem?_mem hget)
        have hwf' : submitWellFormed c reply := by simpa [answerWellFormed, hget] using hwf
        have hact : act v (.answerSubmit i reply) =
            { current := settleSubmit c v.current reply, pending := v.pending.eraseIdx i } := by
          simp [act, hget]
        rw [hact]
        exact ⟨ids_nodup_settleSubmit c v.current reply hc hcur hwf',
          fun p hp => hpen p (List.mem_of_mem_eraseIdx hp)⟩
  | answerDelete i reply =>
    cases hget : v.pending[i]? with
    | none => simpa [act, hget] using And.intro hcur hpen
    | some p =>
      cases p with
      | submit c => simpa [act, hget] using And.intro hcur hpen
      | delete c id =>
        have hc : (ids c.books).Nodup := hpen _ (List.getElem?_mem hget)
        have hact : act v (.answerDelete i reply) =
            { current := settleDelete c v.current id reply,
              pending := v.pending.eraseIdx i } := by
          simp [act, hget]
        rw [hact]
        exact ⟨ids_nodup_settleDelete c v.current id reply hc hcur,
          fun p hp => hpen p (List.mem_of_mem_eraseIdx hp)⟩

/-- A create and a delete outstanding together: the records 1 and 2 are displayed, a create and
the delete of record 2 are sent, the delete settles and leaves record 1, then the create is
answered with a record 2; that identifier is not displayed when the answer arrives, but the
create appends to the list it was called with, and the identifiers are 1, 2, 2. -/
theorem ids_after_delete_then_create :
    ids (acts initView
      [.load (.resolved [⟨1, some "A", some "a", none, none, none⟩,
                         ⟨2, some "B", some "b", none, none, none⟩]),
       .toggle, .callSubmit, .callDelete 2,
       .answerDelete 1 (.resolved ())]).current.books = [1] ∧
    ids (acts initView
      [.load (.resolved [⟨1, some "A", some "a", none, none, none⟩,
                         ⟨2, some "B", some "b", none, none, none⟩]),
       .toggle, .callSubmit, .callDelete 2,
       .answerDelete 1 (.resolved ()),
       .answerSubmit 0 (.resolved ⟨2, some "B", some "b", none, none, none⟩)]).current.books =
      [1, 2, 2] :=
  ⟨rfl, rfl⟩

/-- C7, refuted as stated: the form is opened and a create answered with record 7, twice; the
second answer repeats an identifier that is displayed and the list then holds it twice. -/
theorem ids_nodup_counterexample :
    ids (run initState
      [.toggle, .submit (.resolved dune), .toggle, .submit (.resolved dune)]).books = [7, 7] ∧
    ¬ (ids (run initState
      [.toggle, .submit (.resolved dune), .toggle, .submit (.resolved dune)]).books).Nodup := by
  have h : ids (run initState
      [.toggle, .submit (.resolved dune), .toggle, .submit (.resolved dune)]).books = [7, 7] := rfl
  refine ⟨h, ?_⟩
  rw [h]
  decide

/-- C7, amended: pairwise distinct identifiers are preserved by every handler whose server answer
is well formed for the list the handler was called with: a loaded collection with pairwise
distinct identifiers, a created record with an identifier that is not in that list, an updated
record with the identifier of the edited record or one that is not in that list; delete needs
nothing.  So they hold in every view reachable from the initial one by any interleaving of
handler calls and settlements of outstanding requests with such answers. -/
theorem ids_nodup_invariant :
    (∀ (s : State) (data : List Book), (ids data).Nodup →
      (ids (loadBooks s (.resolved data)).books).Nodup) ∧
    (∀ (c s : State) (reply : Reply Book), (ids c.books).Nodup → (ids s.books).Nodup →
      submitWellFormed c reply → (ids (settleSubmit c s reply).books).Nodup) ∧
    (∀ (s : State) (reply : Reply Book), (ids s.books).Nodup →
      submitWellFormed s reply → (ids (handleSubmit s reply).books).Nodup) ∧
    (∀ (c s : State) (id : Nat) (reply : Reply Unit), (ids c.books).Nodup →
      (ids s.books).Nodup → (ids (settleDelete c s id reply).books).Nodup) ∧
    (∀ (s : State) (id : Nat) (reply : Reply Unit), (ids s.books).Nodup →
      (ids (handleDelete s id reply).books).Nodup) ∧
    (∀ v : View, InterleavedBy answerWellFormed v → (ids v.current.books).Nodup) := by
  refine ⟨fun _ _ h => h, ids_nodup_settleSubmit, ?_, ids_nodup_settleDelete, ?_, ?_⟩
  · intro s reply hs hwf
    rw [← settleSubmit_self]
    exact ids_nodup_settleSubmit s s reply hs hs hwf
  · intro s id reply hs
    rw [← settleDelete_self]
    exact ids_nodup_settleDelete s s id reply hs hs
  · intro v hv
    have key : (ids v.current.books).Nodup ∧
        ∀ p ∈ v.pending, (ids p.closure.books).Nodup := by
      induction hv with
      | init => exact ⟨List.nodup_nil, fun p hp => nomatch hp⟩
      | next a _ hwf ih => exact ids_nodup_act _ a ih.1 ih.2 hwf
    exact key.1

/-- Witness of C7: the records 1 and 2 are loaded, a create and the delete of record 2 are sent,
the delete settles first and the create is then answered with record 7, which is not in the list
the create was called with; the identifiers displayed are pairwise distinct. -/
theorem ids_nodup_invariant_witness :
    ids (acts initView
      [.load (.resolved [⟨1, some "A", some "a", none, none, none⟩,
                         ⟨2, some "B", some "b", none, none, none⟩]),
       .toggle, .callSubmit, .callDelete 2,
       .answerDelete 1 (.resolved ()),
       .answerSubmit 0 (.resolved dune)]).current.books = [1, 2, 7] ∧
    (ids (acts initView
      [.load (.resolved [⟨1, some "A", some "a", none, none, none⟩,
                         ⟨2, some "B", some "b", none, none, none⟩]),
       .toggle, .callSubmit, .callDelete 2,
       .answerDelete 1 (.resolved ()),
       .answerSubmit 0 (.resolved dune)]).current.books).Nodup :=
  ⟨rfl,
    ids_nodup_invariant.2.2.2.2.2 _
      (InterleavedBy.next (.answerSubmit 0 (.resolved dune))
        (InterleavedBy.next (.answerDelete 1 (.resolved ()))
          (InterleavedBy.next (.callDelete 2)
            (InterleavedBy.next .callSubmit
              (InterleavedBy.next .toggle
                (InterleavedBy.next
                  (.load (.resolved [⟨1, some "A", some "a", none, none, none⟩,
                                     ⟨2, some "B", some "b", none, none, none⟩]))
                  InterleavedBy.init (by decide : ([1, 2] : List Nat).Nodup))
                trivial)
              trivial)
            trivial)
          trivial)
        (by decide : (7 : Nat) ∉ ([1, 2] : List Nat)))⟩

/-- C10: in every state reachable from the initial state, where "Cancel Edit" fires only while its
button is rendered, a non-null editing marker implies that the form is visible; equivalently a
closed form has a null editing marker. -/
theorem editing_implies_open (s : State) (hs : ReachableBy rendered s) :
    (s.editingBook ≠ none → s.isFormVisible = true) ∧
    (s.isFormVisible = false → s.editingBook = none) := by
  have key : s.editingBook = none ∨ s.isFormVisible = true := by
    induction hs with
    | init => exact Or.inl rfl
    | @next s e _ _ ih =>
      cases e with
      | load reply => cases reply <;> exact ih
      | change name value => exact ih
      | submit reply =>
        cases reply with
        | rejected => exact ih
        | resolved res =>
          left
          cases hed : s.editingBook <;> simp [step, handleSubmit, hed]
      | delete id reply => cases reply <;> exact ih
      | editClick book => exact Or.inr rfl
      | toggle => exact Or.inl rfl
      | cancel => exact Or.inl rfl
  constructor
  · intro hne
    rcases key with h | h
    · exact absurd h hne
    · exact h
  · intro hclosed
    rcases key with h | h
    · exact h
    · rw [hclosed] at h
      exact absurd h (by decide)

/-- Witness of C10: after a load and an edit click the editing marker is set and the form is
visible. -/
theorem editing_implies_open_witness :
    (step (step initState (.load (.resolved [dune]))) (.editClick dune)).editingBook = some dune ∧
    (step (step initState (.load (.resolved [dune]))) (.editClick dune)).isFormVisible = true :=
  ⟨rfl,
    (editing_implies_open _
      (ReachableBy.next (.editClick dune)
        (ReachableBy.next (.load (.resolved [dune])) ReachableBy.init (fun h => nomatch h))
        (fun h => nomatch h))).1 (fun h => nomatch h)⟩

/-! ## The form session -/

/-- C9, refuted as stated: with the form open for a new record, the edit click on a displayed
record changes the session to editing that record; the step is neither a Submit nor a Cancel and
the session is not closed. -/
theorem session_counterexample :
    (run initState [.load (.resolved [dune]), .toggle]).isFormVisible = true ∧
    session (run initState [.load (.resolved [dune]), .toggle]) = .openNew ∧
    session (step (run initState [.load (.resolved [dune]), .toggle]) (.editClick dune)) =
      .openEditing 7 ∧
    session (step (run initState [.load (.resolved [dune]), .toggle]) (.editClick dune)) ≠
      session (run initState [.load (.resolved [dune]), .toggle]) ∧
    ¬ (isSubmitOrCancel (.editClick dune) = true ∧
      session (step (run initState [.load (.resolved [dune]), .toggle]) (.editClick dune)) =
        .closed) := by
  refine ⟨rfl, rfl, rfl, ?_, ?_⟩
  · show Session.openEditing 7 ≠ Session.openNew
    exact fun h => nomatch h
  · intro h
    exact absurd h.1 (by decide)

/-- C9, amended: from a state with the form open, a step that changes the session is a successful
submit or the header toggle and ends in the closed session, or it is "Cancel Edit" and ends in the
session open for a new record, or it is the edit click on a record and ends in the session
editing that record; a field change, a load, a delete and a failed submit keep the session. -/
theorem session_transitions (s : State) (e : Event) (hopen : s.isFormVisible = true)
    (hchg : session (step s e) ≠ session s) :
    ((∃ res, e = .submit (.resolved res)) ∧ session (step s e) = .closed) ∨
    (e = .toggle ∧ session (step s e) = .closed) ∨
    (e = .cancel ∧ session (step s e) = .openNew) ∨
    (∃ book, e = .editClick book ∧ session (step s e) = .openEditing book.id) := by
  cases e with
  | load reply => cases reply <;> exact absurd rfl hchg
  | change name value => exact absurd rfl hchg
  | submit reply =>
    cases reply with
    | rejected => exact absurd rfl hchg
    | resolved res =>
      left
      refine ⟨⟨res, rfl⟩, ?_⟩
      cases hed : s.editingBook <;> simp [step, handleSubmit, session, hed]
  | delete id reply => cases reply <;> exact absurd rfl hchg
  | editClick book => exact Or.inr (Or.inr (Or.inr ⟨book, rfl, rfl⟩))
  | toggle =>
    right; left
    refine ⟨rfl, ?_⟩
    simp [step, headerToggle, session, hopen]
  | cancel =>
    right; right; left
    refine ⟨rfl, ?_⟩
    simp [step, cancelEdit, session, hopen]

/-- Witness of C9: while record 7 is edited, "Cancel Edit" changes the session and leaves the
form open for a new record. -/
theorem session_transitions_witness :
    ((∃ res, Event.cancel = .submit (.resolved res)) ∧
        session (step (run initState [.load (.resolved [dune]), .editClick dune]) .cancel) =
          .closed) ∨
    (Event.cancel = .toggle ∧
        session (step (run initState [.load (.resolved [dune]), .editClick dune]) .cancel) =
          .closed) ∨
    (Event.cancel = .cancel ∧
        session (step (run initState [.load (.resolved [dune]), .editClick dune]) .cancel) =
          .openNew) ∨
    (∃ book, Event.cancel = .editClick book ∧
        session (step (run initState [.load (.resolved [dune]), .editClick dune]) .cancel) =
          .openEditing book.id) :=
  session_transitions (run initState [.load (.resolved [dune]), .editClick dune]) .cancel rfl
    (fun h => nomatch h)

end Bookstore
